import Mathlib

/-!
Verification of the transcript-acquisition gateway (strategy selection and
fallback-execution engine) against its natural-language specification.

The definitions below are a shallow embedding of the JavaScript sources:

* `services/language-handler.js`   (Language Matcher)
* `services/strategy-selector.js`  (Strategy Selector)
* `services/unified-extractor.js`  (Fallback Executor, Result Normalizer)

Embedding conventions:

* JS strings are Lean `String`s; the language codes and messages involved are
  ASCII, so `toLowerCase` is modelled by ASCII case mapping and `.length` by
  the character count.
* JS numbers used as match confidences and durations are modelled by `ℚ`
  (the comparisons performed — against 0.7, 0, 10 — behave identically on
  IEEE doubles and on the corresponding rationals for the values that occur).
* Millisecond offsets fed to the SRT renderer are modelled by `ℕ`.
* Fallible/asynchronous backend calls are modelled by `Except String`
  values supplied as an oracle; wall-clock elapsed times are not modelled
  (the `extractionTime` of a per-attempt result is 0).
* `getLanguageVariants` mutates no state in practice, but its `push` writes
  through an alias into the global `LANGUAGE_MAPPINGS` object, so it is
  embedded state-passing style over an explicit table.
-/

namespace YtTranscript

/-! ## JS string primitives -/

/-- ASCII case mapping of one character, as JS `toLowerCase` acts on the
ASCII range (all strings handled by the language tables are ASCII). -/
def lowerChar (c : Char) : Char :=
  if 65 ≤ c.toNat ∧ c.toNat ≤ 90 then Char.ofNat (c.toNat + 32) else c

/-- JS `String.prototype.toLowerCase` restricted to ASCII. -/
def jsToLower (s : String) : String :=
  String.mk (s.data.map lowerChar)

/-- The whitespace characters relevant to `trim` on the ASCII range. -/
def isWsChar (c : Char) : Bool :=
  c = ' ' ∨ c = '\t' ∨ c = '\n' ∨ c = '\r'

/-- Drop whitespace from both ends of a character list. -/
def trimChars (l : List Char) : List Char :=
  ((l.dropWhile isWsChar).reverse.dropWhile isWsChar).reverse

/-- JS `String.prototype.trim` restricted to ASCII whitespace. -/
def jsTrim (s : String) : String :=
  String.mk (trimChars s.data)

/-- JS `code.split('-')[0]`: everything before the first dash. -/
def firstSubtag (s : String) : String :=
  String.mk (s.data.takeWhile (fun c => c ≠ '-'))

/-- JS `s.startsWith(t)`. -/
def strStartsWith (s t : String) : Bool :=
  t.data.isPrefixOf s.data

/-- Insertion into a JS `Set`, tracking the elements already seen. -/
def jsSetDedupAux {α : Type} [DecidableEq α] (seen : List α) : List α → List α
  | [] => []
  | a :: rest =>
    if a ∈ seen then jsSetDedupAux seen rest
    else a :: jsSetDedupAux (seen ++ [a]) rest

/-- JS `[...new Set(xs)]`: deduplication keeping the first occurrence. -/
def jsSetDedup {α : Type} [DecidableEq α] (l : List α) : List α :=
  jsSetDedupAux [] l

/-- JS `Array.prototype.join(sep)`. -/
def jsJoin (sep : String) : List String → String
  | [] => ""
  | [a] => a
  | a :: b :: rest => a ++ sep ++ jsJoin sep (b :: rest)

/-- Whether a character is an ASCII uppercase letter. -/
def isUpperA (c : Char) : Bool :=
  decide (65 ≤ c.toNat ∧ c.toNat ≤ 90)

/-- Whether a string contains an ASCII uppercase letter. -/
def hasUpper (s : String) : Bool :=
  s.data.any isUpperA

/-- Whether a string contains a dash. -/
def hasDash (s : String) : Bool :=
  s.data.any (fun c => c = '-')

/-! ## Language handler (`services/language-handler.js`) -/

/-- The mutable mapping object is modelled as an insertion-ordered
association list, matching JS object key order. -/
abbrev Table : Type := List (String × List String)

/-- `LANGUAGE_MAPPINGS` from `services/language-handler.js`. -/
def LANGUAGE_MAPPINGS : Table := [
  ("en", ["en", "en-US", "en-GB", "en-CA", "en-AU"]),
  ("en-US", ["en-US", "en"]),
  ("en-GB", ["en-GB", "en"]),
  ("es", ["es", "es-ES", "es-MX", "es-AR"]),
  ("es-ES", ["es-ES", "es"]),
  ("es-MX", ["es-MX", "es"]),
  ("fr", ["fr", "fr-FR", "fr-CA"]),
  ("fr-FR", ["fr-FR", "fr"]),
  ("fr-CA", ["fr-CA", "fr"]),
  ("de", ["de", "de-DE", "de-AT", "de-CH"]),
  ("de-DE", ["de-DE", "de"]),
  ("pt", ["pt", "pt-BR", "pt-PT"]),
  ("pt-BR", ["pt-BR", "pt"]),
  ("pt-PT", ["pt-PT", "pt"]),
  ("it", ["it", "it-IT"]),
  ("ja", ["ja", "ja-JP"]),
  ("ko", ["ko", "ko-KR"]),
  ("zh", ["zh", "zh-CN", "zh-TW", "zh-HK"]),
  ("zh-CN", ["zh-CN", "zh"]),
  ("zh-TW", ["zh-TW", "zh"]),
  ("ru", ["ru", "ru-RU"]),
  ("ar", ["ar", "ar-SA", "ar-EG"]),
  ("hi", ["hi", "hi-IN"]),
  ("nl", ["nl", "nl-NL"]),
  ("sv", ["sv", "sv-SE"]),
  ("no", ["no", "nb", "nn"]),
  ("da", ["da", "da-DK"]),
  ("fi", ["fi", "fi-FI"]),
  ("pl", ["pl", "pl-PL"]),
  ("tr", ["tr", "tr-TR"]),
  ("he", ["he", "iw"]),
  ("th", ["th", "th-TH"]),
  ("vi", ["vi", "vi-VN"]),
  ("id", ["id", "id-ID"]),
  ("ms", ["ms", "ms-MY"])]

/-- `LANGUAGE_PRIORITY` from `services/language-handler.js`. -/
def LANGUAGE_PRIORITY : List String :=
  ["en", "es", "fr", "de", "pt", "it", "ja", "ko", "zh", "ru", "ar", "hi"]

/-- `this.supportedLanguages`, snapshotted from the keys of
`LANGUAGE_MAPPINGS` in the `LanguageHandler` constructor. -/
def supportedLanguages : List String :=
  LANGUAGE_MAPPINGS.map Prod.fst

/-- The dash-free base keys of the table (used only in proofs; every result
of `normalizeLanguageCode` lies in this list). -/
def baseKeys : List String :=
  ["en", "es", "fr", "de", "pt", "it", "ja", "ko", "zh", "ru", "ar", "hi",
   "nl", "sv", "no", "da", "fi", "pl", "tr", "he", "th", "vi", "id", "ms"]

/-- `normalizeLanguageCode` from `services/language-handler.js`.  The empty
string stands for a JS falsy argument; the `table` argument is the current
`LANGUAGE_MAPPINGS` object scanned by the variant loop (the key set read
through `this.supportedLanguages` is the constructor-time snapshot). -/
def normalizeLanguageCode (table : Table) (languageCode : String) : String :=
  -- `normalized` is `jsTrim (jsToLower languageCode)` and `baseLang` is its
  -- first subtag; both are written out so the branches are proof-friendly.
  if languageCode = "" then "en"
  else if jsTrim (jsToLower languageCode) ∈ supportedLanguages then
    jsTrim (jsToLower languageCode)
  else if firstSubtag (jsTrim (jsToLower languageCode)) ∈ supportedLanguages then
    firstSubtag (jsTrim (jsToLower languageCode))
  else
    match table.find? (fun kv => decide (jsTrim (jsToLower languageCode) ∈ kv.2)) with
    | some kv => kv.1
    | none => "en"

/-- The record returned by `findBestLanguageMatch`. -/
structure LanguageMatch where
  selectedLanguage : String
  matchType : String
  confidence : ℚ
  availableAlternatives : List String
  deriving DecidableEq, Repr

/-- `findBestLanguageMatch` from `services/language-handler.js`.  (The
`normalizedAvailable` array computed there is used only for logging and is
omitted.) -/
def findBestLanguageMatch (availableLanguages : List String)
    (preferredLanguage : String) : LanguageMatch :=
  -- The source's `normalizedPreferred` and `baseLang` locals are written out
  -- in place; `availableLanguages[0]` of the non-empty last branch is
  -- `headD ""`.
  if availableLanguages.isEmpty then
    { selectedLanguage := preferredLanguage, matchType := "none",
      confidence := 0, availableAlternatives := [] }
  else
    match availableLanguages.find? (fun lang =>
        normalizeLanguageCode LANGUAGE_MAPPINGS lang
          == normalizeLanguageCode LANGUAGE_MAPPINGS preferredLanguage) with
    | some exactMatch =>
      { selectedLanguage := exactMatch, matchType := "exact", confidence := 1,
        availableAlternatives := availableLanguages.filter (fun lang => lang ≠ exactMatch) }
    | none =>
      match availableLanguages.find? (fun lang =>
          strStartsWith (normalizeLanguageCode LANGUAGE_MAPPINGS lang)
            (firstSubtag (normalizeLanguageCode LANGUAGE_MAPPINGS preferredLanguage)) ||
          (normalizeLanguageCode LANGUAGE_MAPPINGS lang
            == firstSubtag (normalizeLanguageCode LANGUAGE_MAPPINGS preferredLanguage))) with
      | some familyMatch =>
        { selectedLanguage := familyMatch, matchType := "family", confidence := mkRat 4 5,  -- 0.8
          availableAlternatives := availableLanguages.filter (fun lang => lang ≠ familyMatch) }
      | none =>
        match LANGUAGE_PRIORITY.findSome? (fun priorityLang =>
            availableLanguages.find?
              (fun lang => normalizeLanguageCode LANGUAGE_MAPPINGS lang == priorityLang)) with
        | some priorityMatch =>
          { selectedLanguage := priorityMatch, matchType := "priority_fallback",
            confidence := mkRat 3 5,  -- 0.6
            availableAlternatives := availableLanguages.filter (fun lang => lang ≠ priorityMatch) }
        | none =>
          { selectedLanguage := availableLanguages.headD "",
            matchType := "first_available", confidence := mkRat 3 10,  -- 0.3
            availableAlternatives := availableLanguages.tail }

/-- Replace the value stored under key `k` (object-field assignment). -/
def updateTable (t : Table) (k : String) (v : List String) : Table :=
  t.map (fun kv => if kv.1 = k then (k, v) else kv)

/-- `getLanguageVariants` from `services/language-handler.js`, state-passing.
The JS `variants` array aliases the table entry when the lookup succeeds, so
the `push` in the guarded branch writes into the table; when the lookup fell
back to `[normalized]` the pushed array is fresh and the table is untouched. -/
def getLanguageVariantsSt (table : Table) (languageCode : String) :
    List String × Table :=
  let normalized := normalizeLanguageCode table languageCode
  let variants := ((table.find? (fun kv => kv.1 = normalized)).map Prod.snd).getD [normalized]
  let baseLang := firstSubtag normalized
  if baseLang ≠ normalized ∧ (table.find? (fun kv => kv.1 = baseLang)).isSome then
    let pushed := variants ++ (((table.find? (fun kv => kv.1 = baseLang)).map Prod.snd).getD [])
    (jsSetDedup pushed,
     if (table.find? (fun kv => kv.1 = normalized)).isSome
     then updateTable table normalized pushed else table)
  else
    (jsSetDedup variants, table)

/-- `getLanguageVariants` as called on the singleton service (initial table). -/
def getLanguageVariants (languageCode : String) : List String :=
  (getLanguageVariantsSt LANGUAGE_MAPPINGS languageCode).1

/-- `_getCountryForLanguage` from `services/language-handler.js`. -/
def getCountryForLanguage (languageCode : String) : String :=
  (([("en", "US"), ("en-US", "US"), ("en-GB", "GB"), ("en-CA", "CA"),
     ("en-AU", "AU"), ("es", "ES"), ("es-MX", "MX"), ("es-AR", "AR"),
     ("fr", "FR"), ("fr-CA", "CA"), ("de", "DE"), ("pt", "BR"),
     ("pt-BR", "BR"), ("pt-PT", "PT"), ("it", "IT"), ("ja", "JP"),
     ("ko", "KR"), ("zh", "CN"), ("zh-CN", "CN"), ("zh-TW", "TW"),
     ("ru", "RU")] : List (String × String)).lookup languageCode).getD "US"

/-- The record built by `createLanguageConfig`; the method-specific fields
are optional, mirroring the duck-typed JS object. -/
structure LanguageConfig where
  primaryLanguage : String
  fallbackLanguages : List String
  availableLanguages : List String
  matchConfidence : ℚ
  matchType : String
  country : Option String := none
  retryLanguages : List String := []
  langCode : Option String := none
  languageHint : Option String := none
  deriving DecidableEq, Repr

/-- `createLanguageConfig` from `services/language-handler.js`. -/
def createLanguageConfig (preferredLanguage : String)
    (availableLanguages : List String) (extractionMethod : String) : LanguageConfig :=
  let matchResult := findBestLanguageMatch availableLanguages preferredLanguage
  let variants := getLanguageVariants preferredLanguage
  let config : LanguageConfig :=
    { primaryLanguage := matchResult.selectedLanguage,
      fallbackLanguages := variants,
      availableLanguages := availableLanguages,
      matchConfidence := matchResult.confidence,
      matchType := matchResult.matchType }
  if extractionMethod = "youtube-transcript" then
    { config with country := some (getCountryForLanguage matchResult.selectedLanguage),
                  retryLanguages := variants.take 3 }
  else if extractionMethod = "youtube-caption-extractor" then
    { config with langCode := some matchResult.selectedLanguage }
  else if extractionMethod = "whisper-audio" then
    { config with languageHint := some (normalizeLanguageCode LANGUAGE_MAPPINGS preferredLanguage) }
  else config

/-! ## Strategy selector (`services/strategy-selector.js`) -/

/-- The closed enumeration of extraction techniques (`TRANSCRIPT_METHODS`).
The third constructor is named `whisperAudioMethod` for the source's
`WHISPER_AUDIO`. -/
inductive TranscriptMethod where
  | youtubeTranscript
  | youtubeCaptionExtractor
  | whisperAudioMethod
  deriving DecidableEq, Repr

/-- The string value of each `TRANSCRIPT_METHODS` member. -/
def methodName : TranscriptMethod → String
  | .youtubeTranscript => "youtube-transcript"
  | .youtubeCaptionExtractor => "youtube-caption-extractor"
  | .whisperAudioMethod => "whisper-audio"

/-- `VideoMetadata` (input record, see `types/interfaces.js`).  Duration is
in seconds; it is modelled by `ℚ` since JS numbers may be fractional. -/
structure VideoMetadata where
  videoId : String
  title : String
  description : String
  duration : ℚ
  isLive : Bool
  isUpcoming : Bool
  hasClosedCaptions : Bool
  availableLanguages : List String
  deriving DecidableEq, Repr

/-- `ExtractionPreferences` after merging with `DEFAULT_PREFERENCES`.
The field `audioFallback` is the source's `fallbackToAudio`. -/
structure ExtractionPreferences where
  preferredLanguage : String
  format : String
  audioFallback : Bool
  deriving DecidableEq, Repr

/-- `DEFAULT_PREFERENCES` from `types/interfaces.js`. -/
def DEFAULT_PREFERENCES : ExtractionPreferences :=
  { preferredLanguage := "en", format := "txt", audioFallback := true }

/-- `_isVideoSuitableForExtraction` from `services/strategy-selector.js`.
(The `duration > 7200` branch only logs and changes nothing.) -/
def isVideoSuitableForExtraction (metadata : VideoMetadata) : Bool :=
  if metadata.isLive then false
  else if metadata.isUpcoming then false
  else if metadata.duration > 0 ∧ metadata.duration < 10 then false
  else true

/-- `_hasPreferredLanguage` from `services/strategy-selector.js`. -/
def hasPreferredLanguage (availableLanguages : List String)
    (preferredLanguage : String) : Bool :=
  if availableLanguages.isEmpty then false
  else if availableLanguages.contains preferredLanguage then true
  else availableLanguages.any (fun lang => strStartsWith lang (firstSubtag preferredLanguage))

/-- `selectStrategy` from `services/strategy-selector.js`.  The two branches
of the `hasPreferredLanguage` test push the same methods (they differ only
in logging) and are kept as in the source. -/
def selectStrategy (metadata : VideoMetadata) (prefs : ExtractionPreferences) :
    List TranscriptMethod :=
  if ¬ isVideoSuitableForExtraction metadata then
    if prefs.audioFallback then [.whisperAudioMethod] else []
  else
    let strategies :=
      (if metadata.hasClosedCaptions then
        (if hasPreferredLanguage metadata.availableLanguages prefs.preferredLanguage then
          [TranscriptMethod.youtubeTranscript, TranscriptMethod.youtubeCaptionExtractor]
        else
          [TranscriptMethod.youtubeTranscript, TranscriptMethod.youtubeCaptionExtractor])
      else []) ++
      (if prefs.audioFallback then [TranscriptMethod.whisperAudioMethod] else [])
    jsSetDedup strategies

/-- `_getFallbackLanguages` from `services/strategy-selector.js`. -/
def getFallbackLanguages (availableLanguages : List String)
    (preferredLanguage : String) : List String :=
  if availableLanguages.isEmpty then [preferredLanguage]
  else
    let langPre := firstSubtag preferredLanguage
    let fallbacks :=
      (if availableLanguages.contains preferredLanguage then [preferredLanguage] else [])
    let fallbacks := fallbacks ++
      (availableLanguages.filter (fun lang =>
        strStartsWith lang langPre && !(fallbacks.contains lang)))
    let fallbacks := fallbacks ++
      (if fallbacks.any (fun lang => strStartsWith lang "en") then []
       else availableLanguages.filter (fun lang => strStartsWith lang "en"))
    let fallbacks := fallbacks ++
      (availableLanguages.filter (fun lang => !(fallbacks.contains lang)))
    if fallbacks.isEmpty then [preferredLanguage] else fallbacks

/-- The duck-typed per-method configuration object built by
`getMethodConfig`; absent fields are `none` (or `""` for `language`). -/
structure MethodConfig where
  videoId : String
  language : String
  format : String
  languageConfig : Option LanguageConfig := none
  country : Option String := none
  fallbackLanguages : List String := []
  availableLanguages : List String := []
  langCode : Option String := none
  title : Option String := none
  description : Option String := none
  duration : Option ℚ := none
  model : Option String := none
  response_format : Option String := none
  languageHint : Option String := none
  deriving DecidableEq, Repr

/-- `getMethodConfig` from `services/strategy-selector.js`. -/
def getMethodConfig (method : TranscriptMethod) (metadata : VideoMetadata)
    (prefs : ExtractionPreferences) : MethodConfig :=
  let languageConfig :=
    createLanguageConfig prefs.preferredLanguage metadata.availableLanguages (methodName method)
  let baseConfig : MethodConfig :=
    { videoId := metadata.videoId,
      language := languageConfig.primaryLanguage,
      format := prefs.format,
      languageConfig := some languageConfig }
  match method with
  | .youtubeTranscript =>
    -- `languageConfig.fallbackLanguages || this._getFallbackLanguages(...)`:
    -- the left side is always an array, and arrays are truthy in JS, so the
    -- `_getFallbackLanguages` alternative is never consulted here.
    { baseConfig with
        country := some ((languageConfig.country).getD "US"),
        fallbackLanguages := languageConfig.fallbackLanguages }
  | .youtubeCaptionExtractor =>
    { baseConfig with
        availableLanguages := metadata.availableLanguages,
        langCode := some ((languageConfig.langCode).getD languageConfig.primaryLanguage) }
  | .whisperAudioMethod =>
    { baseConfig with
        title := some metadata.title,
        description := some metadata.description,
        duration := some metadata.duration,
        model := some "whisper-1",
        response_format := some (if prefs.format = "srt" then "srt" else "verbose_json"),
        languageHint := languageConfig.languageHint }

/-! ## Result normalisation: SRT rendering (`services/unified-extractor.js`) -/

/-- One transcript segment; offsets are milliseconds (`ℕ`, the claims range
over non-negative integer times). -/
structure SrtSegment where
  text : String
  start : Nat
  duration : Nat
  deriving DecidableEq, Repr

/-- JS `n.toString().padStart(width, '0')`. -/
def padStartZero (s : String) (width : Nat) : String :=
  String.mk (List.replicate (width - s.length) '0') ++ s

/-- `_formatSrtTime` from `services/unified-extractor.js`. -/
def formatSrtTime (milliseconds : Nat) : String :=
  let totalSeconds := milliseconds / 1000
  let hours := totalSeconds / 3600
  let minutes := (totalSeconds % 3600) / 60
  let seconds := totalSeconds % 60
  let ms := milliseconds % 1000
  padStartZero (toString hours) 2 ++ ":" ++ padStartZero (toString minutes) 2 ++ ":" ++
    padStartZero (toString seconds) 2 ++ "," ++ padStartZero (toString ms) 3

/-- `_formatAsSrt` from `services/unified-extractor.js`. -/
def formatAsSrt (segments : List SrtSegment) : String :=
  jsJoin "\n" (segments.enum.map (fun p =>
    toString (p.1 + 1) ++ "\n" ++ formatSrtTime p.2.start ++ " --> " ++
      formatSrtTime (p.2.start + p.2.duration) ++ "\n" ++ p.2.text ++ "\n"))

/-! ## Fallback executor (`services/unified-extractor.js`) -/

/-- The raw object a per-technique extraction helper
(`_extractWithYouTubeTranscript`, `_extractWithCaptionExtractor`,
`_extractWithWhisperAudio`) resolves with. -/
structure RawResult where
  transcript : String
  language : String
  format : String
  confidence : Option ℚ := none
  segments : List SrtSegment := []
  audioSizeBytes : Option Nat := none
  deriving DecidableEq, Repr

/-- The uniform result record (`TranscriptResult`) built by
`extractTranscript` and returned by `extractWithFallback`. -/
structure TResult where
  success : Bool
  transcript : String
  language : String
  format : String
  method : String
  error : Option String := none
  confidence : Option ℚ := none
  segments : List SrtSegment := []
  audioSizeBytes : Option Nat := none
  extractionTime : Nat := 0
  deriving DecidableEq, Repr

/-- The `config` object threaded through `extractWithFallback`; only its
`format` and `language` fields are read there (`none` models `undefined`). -/
structure FallbackConfig where
  format : Option String := none
  language : Option String := none
  deriving DecidableEq, Repr

/-- A backend oracle: for each technique, either the raw result its helper
resolves with, or the message of the error it rejects with. -/
def Backend : Type := TranscriptMethod → Except String RawResult

/-- `extractTranscript` from `services/unified-extractor.js`: dispatches to
the technique's helper and catches every rejection into a failed result.
Wall-clock timing is not modelled, so `extractionTime` is 0. -/
def extractTranscript (backend : Backend) (config : FallbackConfig)
    (method : TranscriptMethod) : TResult :=
  match backend method with
  | .ok raw =>
    { success := true,
      transcript := raw.transcript,
      language := raw.language,
      format := raw.format,
      method := methodName method,
      confidence := raw.confidence,
      segments := raw.segments,
      audioSizeBytes := raw.audioSizeBytes,
      extractionTime := 0 }
  | .error msg =>
    { success := false,
      transcript := "",
      format := config.format.getD "txt",
      language := config.language.getD "en",
      method := methodName method,
      error := some msg,
      extractionTime := 0 }

/-- The failure `TranscriptResult` built when every method was exhausted. -/
def allFailedResult (config : FallbackConfig) (errors : List String) : TResult :=
  { success := false,
    transcript := "",
    format := config.format.getD "txt",
    language := config.language.getD "en",
    method := "none",
    error := some ("All extraction methods failed. Errors: " ++ jsJoin "; " errors),
    extractionTime := 0 }

/-- The acceptance test of the fallback loop:
`result.success && result.transcript && result.transcript.length > 50`. -/
def sufficientResult (result : TResult) : Bool :=
  result.success && result.transcript != "" && decide (result.transcript.length > 50)

/-- The loop body of `extractWithFallback`, instrumented with the list of
methods actually invoked.  `attempt` is the (possibly throwing) call to
`this.extractTranscript`; its errors are caught by the loop's `catch`. -/
def extractWithFallbackGo (attempt : TranscriptMethod → Except String TResult)
    (config : FallbackConfig) :
    List TranscriptMethod → List String → TResult × List TranscriptMethod
  | [], errors => (allFailedResult config errors, [])
  | method :: rest, errors =>
    match attempt method with
    | .ok result =>
      if sufficientResult result then
        (result, [method])
      else
        let r := extractWithFallbackGo attempt config rest
          (errors ++ [methodName method ++ ": Insufficient content (" ++
            toString result.transcript.length ++ " chars)"])
        (r.1, method :: r.2)
    | .error msg =>
      let r := extractWithFallbackGo attempt config rest
        (errors ++ [methodName method ++ ": " ++ msg])
      (r.1, method :: r.2)

/-- `extractWithFallback` from `services/unified-extractor.js`
(`extractTranscript` never rejects, so the attempt is always `.ok`). -/
def extractWithFallback (backend : Backend) (config : FallbackConfig)
    (methods : List TranscriptMethod) : TResult :=
  (extractWithFallbackGo (fun m => Except.ok (extractTranscript backend config m))
    config methods []).1

/-- The methods `extractWithFallback` actually invokes, in order. -/
def invokedMethods (backend : Backend) (config : FallbackConfig)
    (methods : List TranscriptMethod) : List TranscriptMethod :=
  (extractWithFallbackGo (fun m => Except.ok (extractTranscript backend config m))
    config methods []).2

/-- `config.languageConfig?.matchConfidence > 0.7` (`false` when the
optional chain hits `undefined`). -/
def confidenceGate (o : Option LanguageConfig) : Bool :=
  match o with
  | some lc => decide (lc.matchConfidence > mkRat 7 10)  -- 0.7
  | none => false

/-- The language selection inside `_transcribeWithWhisper`: `some lang`
models `transcriptionConfig.language = lang`, `none` models leaving it unset
so that the transcription backend auto-detects.  `config.languageHint` and
`config.language` are JS-truthy when non-`none` and non-empty. -/
def whisperLanguageChoice (config : MethodConfig) : Option String :=
  if (config.languageHint.getD "") ≠ "" ∧ confidenceGate config.languageConfig = true then
    some (normalizeLanguageCode LANGUAGE_MAPPINGS (config.languageHint.getD ""))
  else if config.language ≠ "" ∧ config.language ≠ "auto" then
    some (normalizeLanguageCode LANGUAGE_MAPPINGS config.language)
  else
    none

/-! ## Claim-side rendering of the SRT format

These two definitions follow the words of the subtitle-encoding claim
(hours = total seconds ÷ 3600, minutes and seconds by integer division and
remainder, milliseconds = total ms mod 1000, fields zero-padded to 2/2/2/3
digits; 1-based sequential index; blocks separated by blank lines).  They
are compared with the source-derived `formatAsSrt` by theorem. -/

def claimSrtTime (t : Nat) : String :=
  padStartZero (toString (t / 3600000)) 2 ++ ":" ++
    padStartZero (toString ((t / 60000) % 60)) 2 ++ ":" ++
    padStartZero (toString ((t / 1000) % 60)) 2 ++ "," ++
    padStartZero (toString (t % 1000)) 3

def claimSrtBlock (p : Nat × SrtSegment) : String :=
  toString (p.1 + 1) ++ "\n" ++ claimSrtTime p.2.start ++ " --> " ++
    claimSrtTime (p.2.start + p.2.duration) ++ "\n" ++ p.2.text

def claimSrtRender (segments : List SrtSegment) : String :=
  if segments.isEmpty then ""
  else jsJoin "\n\n" (segments.enum.map claimSrtBlock) ++ "\n"

/-! ## Concrete fixtures used by witnesses and counterexamples -/

/-- A live video that nevertheless carries closed captions. -/
def liveCaptionedVideo : VideoMetadata :=
  { videoId := "live1", title := "stream", description := "", duration := 600,
    isLive := true, isUpcoming := false, hasClosedCaptions := true,
    availableLanguages := ["en"] }

/-- An ordinary captioned video. -/
def captionedVideo : VideoMetadata :=
  { videoId := "vid1", title := "talk", description := "", duration := 600,
    isLive := false, isUpcoming := false, hasClosedCaptions := true,
    availableLanguages := ["en"] }

/-- A very short (5 second) video. -/
def shortVideo : VideoMetadata :=
  { videoId := "vid2", title := "clip", description := "", duration := 5,
    isLive := false, isUpcoming := false, hasClosedCaptions := true,
    availableLanguages := ["en"] }

/-- A captioned video whose only caption language (French) does not match
the default preferred language (English). -/
def frenchOnlyVideo : VideoMetadata :=
  { videoId := "vid3", title := "expose", description := "", duration := 100,
    isLive := false, isUpcoming := false, hasClosedCaptions := true,
    availableLanguages := ["fr"] }

/-- A backend whose first technique returns too little text and whose other
techniques return a long transcript. -/
def secondSucceedsBackend : Backend := fun m =>
  match m with
  | .youtubeTranscript => .ok { transcript := "short", language := "en", format := "txt" }
  | _ => .ok { transcript := "a sufficiently long transcript produced by the second caption technique",
               language := "en", format := "txt" }

/-- A backend on which every technique fails or is insufficient. -/
def allFailBackend : Backend := fun m =>
  match m with
  | .youtubeTranscript => .error "network down"
  | .youtubeCaptionExtractor => .ok { transcript := "tiny", language := "en", format := "txt" }
  | .whisperAudioMethod => .error "OpenAI API key not configured for audio transcription"

/-- A backend that rejects every technique with the message `boom`. -/
def throwingBackend : Backend := fun _ => .error "boom"

/-! ## Lemmas about the string primitives -/

theorem data_mk (l : List Char) : (String.mk l).data = l := rfl

theorem mk_data (s : String) : String.mk s.data = s := rfl

/-- ASCII lowering never produces an ASCII uppercase letter. -/
theorem lowerChar_not_upper (c : Char) : isUpperA (lowerChar c) = false := by
  unfold lowerChar
  split_ifs with h
  · obtain ⟨h1, h2⟩ := h
    generalize hn : c.toNat = n at h1 h2 ⊢
    interval_cases n <;> decide
  · simp only [isUpperA, decide_eq_false_iff_not]
    exact h

/-- Strings produced by `jsToLower` contain no ASCII uppercase letter. -/
theorem hasUpper_jsToLower (s : String) : hasUpper (jsToLower s) = false := by
  simp only [hasUpper, jsToLower, data_mk, List.any_eq_false]
  intro c hc
  obtain ⟨a, _, rfl⟩ := List.mem_map.mp hc
  simp [lowerChar_not_upper a]

/-- Trimming only deletes characters. -/
theorem mem_of_mem_trimChars {c : Char} {l : List Char} (h : c ∈ trimChars l) : c ∈ l := by
  unfold trimChars at h
  rw [List.mem_reverse] at h
  have h2 := (List.dropWhile_sublist _).subset h
  rw [List.mem_reverse] at h2
  exact (List.dropWhile_sublist _).subset h2

/-- The trimmed lowering of any string contains no uppercase letter. -/
theorem hasUpper_trim_lower (s : String) : hasUpper (jsTrim (jsToLower s)) = false := by
  have h1 := hasUpper_jsToLower s
  simp only [hasUpper, List.any_eq_false] at h1 ⊢
  intro c hc
  exact h1 c (mem_of_mem_trimChars (by simpa [jsTrim, data_mk] using hc))

/-- `firstSubtag` contains no dash. -/
theorem hasDash_firstSubtag (s : String) : hasDash (firstSubtag s) = false := by
  simp only [hasDash, firstSubtag, data_mk, List.any_eq_false]
  intro c hc
  have h := List.mem_takeWhile_imp hc
  simpa using h

/-- On dash-free strings `firstSubtag` is the identity. -/
theorem firstSubtag_of_no_dash {s : String} (h : hasDash s = false) : firstSubtag s = s := by
  simp only [hasDash, List.any_eq_false] at h
  unfold firstSubtag
  rw [List.takeWhile_eq_self_iff.mpr, mk_data]
  intro c hc
  simpa using h c hc

/-! ## Range of `normalizeLanguageCode`

Every key of `LANGUAGE_MAPPINGS` that contains a dash also contains an
uppercase letter, so a lowercase string found among the keys is one of the
24 dash-free base keys; the only lowercase variant entries that are not
themselves keys (`nb`, `nn`, `iw`) live under the base keys `no` and `he`.
Consequently `normalizeLanguageCode` always lands in `baseKeys`. -/

/-- A lowercase member of the key set is a base key. -/
theorem mem_baseKeys_of_supported {s : String} (hlow : hasUpper s = false)
    (hmem : s ∈ supportedLanguages) : s ∈ baseKeys := by
  have hmem2 : s ∈ (["en", "en-US", "en-GB", "es", "es-ES", "es-MX", "fr", "fr-FR",
      "fr-CA", "de", "de-DE", "pt", "pt-BR", "pt-PT", "it", "ja", "ko", "zh",
      "zh-CN", "zh-TW", "ru", "ar", "hi", "nl", "sv", "no", "da", "fi", "pl",
      "tr", "he", "th", "vi", "id", "ms"] : List String) := hmem
  fin_cases hmem2 <;> first
    | decide
    | exact absurd hlow (by decide)

/-- A dash-free member of the key set is a base key. -/
theorem mem_baseKeys_of_supported_no_dash {s : String} (hd : hasDash s = false)
    (hmem : s ∈ supportedLanguages) : s ∈ baseKeys := by
  have hmem2 : s ∈ (["en", "en-US", "en-GB", "es", "es-ES", "es-MX", "fr", "fr-FR",
      "fr-CA", "de", "de-DE", "pt", "pt-BR", "pt-PT", "it", "ja", "ko", "zh",
      "zh-CN", "zh-TW", "ru", "ar", "hi", "nl", "sv", "no", "da", "fi", "pl",
      "tr", "he", "th", "vi", "id", "ms"] : List String) := hmem
  fin_cases hmem2 <;> first
    | decide
    | exact absurd hd (by decide)

/-- If the variant loop finds an entry whose variant list holds a lowercase
non-key string, that entry's key is a base key. -/
theorem find_variant_mem_baseKeys {s : String} {kv : String × List String}
    (hlow : hasUpper s = false) (hns : s ∉ supportedLanguages)
    (hfind : LANGUAGE_MAPPINGS.find? (fun kv => decide (s ∈ kv.2)) = some kv) :
    kv.1 ∈ baseKeys := by
  have hmem := List.mem_of_find?_eq_some hfind
  have hpred := of_decide_eq_true
    (@List.find?_some _ (fun kv => decide (s ∈ kv.2)) kv LANGUAGE_MAPPINGS hfind)
  have hmem2 : kv ∈ ([("en", ["en", "en-US", "en-GB", "en-CA", "en-AU"]),
    ("en-US", ["en-US", "en"]), ("en-GB", ["en-GB", "en"]),
    ("es", ["es", "es-ES", "es-MX", "es-AR"]), ("es-ES", ["es-ES", "es"]),
    ("es-MX", ["es-MX", "es"]), ("fr", ["fr", "fr-FR", "fr-CA"]),
    ("fr-FR", ["fr-FR", "fr"]), ("fr-CA", ["fr-CA", "fr"]),
    ("de", ["de", "de-DE", "de-AT", "de-CH"]), ("de-DE", ["de-DE", "de"]),
    ("pt", ["pt", "pt-BR", "pt-PT"]), ("pt-BR", ["pt-BR", "pt"]),
    ("pt-PT", ["pt-PT", "pt"]), ("it", ["it", "it-IT"]), ("ja", ["ja", "ja-JP"]),
    ("ko", ["ko", "ko-KR"]), ("zh", ["zh", "zh-CN", "zh-TW", "zh-HK"]),
    ("zh-CN", ["zh-CN", "zh"]), ("zh-TW", ["zh-TW", "zh"]), ("ru", ["ru", "ru-RU"]),
    ("ar", ["ar", "ar-SA", "ar-EG"]), ("hi", ["hi", "hi-IN"]), ("nl", ["nl", "nl-NL"]),
    ("sv", ["sv", "sv-SE"]), ("no", ["no", "nb", "nn"]), ("da", ["da", "da-DK"]),
    ("fi", ["fi", "fi-FI"]), ("pl", ["pl", "pl-PL"]), ("tr", ["tr", "tr-TR"]),
    ("he", ["he", "iw"]), ("th", ["th", "th-TH"]), ("vi", ["vi", "vi-VN"]),
    ("id", ["id", "id-ID"]), ("ms", ["ms", "ms-MY"])] : Table) := hmem
  fin_cases hmem2 <;>
    (fin_cases hpred <;> first
      | decide
      | exact absurd hlow (by decide)
      | exact absurd (by decide) hns)

/-- Every result of `normalizeLanguageCode` on the initial table is one of
the 24 dash-free base keys. -/
theorem normalize_mem_baseKeys (code : String) :
    normalizeLanguageCode LANGUAGE_MAPPINGS code ∈ baseKeys := by
  unfold normalizeLanguageCode
  split_ifs with h0 h1 h2
  · decide
  · exact mem_baseKeys_of_supported (hasUpper_trim_lower code) h1
  · exact mem_baseKeys_of_supported_no_dash (hasDash_firstSubtag _) h2
  · split
    next kv heq => exact find_variant_mem_baseKeys (hasUpper_trim_lower code) h1 heq
    next => decide

/-- The normalized code never contains a dash. -/
theorem normalize_no_dash (code : String) :
    hasDash (normalizeLanguageCode LANGUAGE_MAPPINGS code) = false := by
  have h := normalize_mem_baseKeys code
  have hall : ∀ s ∈ baseKeys, hasDash s = false := by decide
  exact hall _ h

/-- The normalized code is never empty. -/
theorem normalize_ne_empty (code : String) :
    normalizeLanguageCode LANGUAGE_MAPPINGS code ≠ "" := by
  have h := normalize_mem_baseKeys code
  have hall : ∀ s ∈ baseKeys, s ≠ "" := by decide
  exact hall _ h

/-! ## Immutability of the language table (claim C6) -/

/-- One call to `getLanguageVariants` leaves `LANGUAGE_MAPPINGS` unchanged:
the guarded `push` requires the normalized code to differ from its first
subtag, and normalized codes are dash-free. -/
theorem getLanguageVariantsSt_preserves (code : String) :
    (getLanguageVariantsSt LANGUAGE_MAPPINGS code).2 = LANGUAGE_MAPPINGS := by
  have hb := firstSubtag_of_no_dash (normalize_no_dash code)
  simp [getLanguageVariantsSt, hb]

/-- Any sequence of `getLanguageVariants` calls leaves the table at its
initial value. -/
theorem variants_fold_preserves (prior : List String) :
    prior.foldl (fun t c => (getLanguageVariantsSt t c).2) LANGUAGE_MAPPINGS
      = LANGUAGE_MAPPINGS := by
  induction prior with
  | nil => rfl
  | cons a l ih =>
    rw [List.foldl_cons, getLanguageVariantsSt_preserves]
    exact ih

/-- C6: the Language Matcher operations mutate no shared state: after any
sequence of `getLanguageVariants` calls the static `LANGUAGE_MAPPINGS` table
is unchanged, so a later call with the same argument returns the same result
as a call against the pristine table (and `findBestLanguageMatch` and
`normalizeLanguageCode`, which only read, are unaffected as well). -/
theorem language_matcher_stateless_c6 (prior : List String) (code : String) :
    prior.foldl (fun t c => (getLanguageVariantsSt t c).2) LANGUAGE_MAPPINGS
      = LANGUAGE_MAPPINGS ∧
    (getLanguageVariantsSt
        (prior.foldl (fun t c => (getLanguageVariantsSt t c).2) LANGUAGE_MAPPINGS)
        code).1
      = getLanguageVariants code := by
  refine ⟨variants_fold_preserves prior, ?_⟩
  rw [variants_fold_preserves prior]
  rfl

/-! ## Variant expansion of unknown codes (claim C7) -/

/-- C7 counterexample: `"xx"` is not a key of the variants table, yet
`getLanguageVariants "xx"` is the English expansion, not the singleton
`["xx"]` the claim requires. -/
theorem variants_unknown_counterexample_c7 :
    "xx" ∉ supportedLanguages ∧
    getLanguageVariants "xx" = ["en", "en-US", "en-GB", "en-CA", "en-AU"] ∧
    getLanguageVariants "xx" ≠ ["xx"] := by decide

/-- C7 (amended): an unknown code is first normalized, and normalization
maps unknown codes to the default `"en"`, so `getLanguageVariants` returns
the English variant list for it — the singleton fallback `[normalized]` is
unreachable because normalization always produces a table key. -/
theorem variants_unknown_amended_c7 (code : String)
    (h1 : jsTrim (jsToLower code) ∉ supportedLanguages)
    (h2 : firstSubtag (jsTrim (jsToLower code)) ∉ supportedLanguages)
    (h3 : LANGUAGE_MAPPINGS.find?
        (fun kv => decide (jsTrim (jsToLower code) ∈ kv.2)) = none) :
    getLanguageVariants code = ["en", "en-US", "en-GB", "en-CA", "en-AU"] := by
  have hn : normalizeLanguageCode LANGUAGE_MAPPINGS code = "en" := by
    unfold normalizeLanguageCode
    split_ifs with h0
    · rfl
    · rw [h3]
  simp only [getLanguageVariants, getLanguageVariantsSt, hn]
  decide

/-- Witness for the amended C7 at the concrete unknown code `"xx"`. -/
theorem variants_unknown_amended_c7_witness :
    (jsTrim (jsToLower "xx") ∉ supportedLanguages ∧
     firstSubtag (jsTrim (jsToLower "xx")) ∉ supportedLanguages ∧
     LANGUAGE_MAPPINGS.find?
        (fun kv => decide (jsTrim (jsToLower "xx") ∈ kv.2)) = none) ∧
    getLanguageVariants "xx" = ["en", "en-US", "en-GB", "en-CA", "en-AU"] :=
  ⟨by decide,
   variants_unknown_amended_c7 "xx" (by decide) (by decide) (by decide)⟩

/-! ## Family matching (claim C8) -/

/-- On the 24 base keys, `startsWith` coincides with equality (they all have
two characters). -/
theorem baseKeys_startsWith_eq :
    ∀ a ∈ baseKeys, ∀ b ∈ baseKeys, strStartsWith a b = true → a = b := by decide

/-- The `family` branch of `findBestLanguageMatch` is unreachable: since
normalization collapses regional variants to their base key, the family
condition implies the exact condition, which was already found empty. -/
theorem findBest_matchType_ne_family (avail : List String) (pref : String) :
    (findBestLanguageMatch avail pref).matchType ≠ "family" := by
  unfold findBestLanguageMatch
  split_ifs with h
  · simp
  · split
    next exactMatch heq => simp
    next hexact =>
      split
      next familyMatch heq =>
        exfalso
        have hmem := List.mem_of_find?_eq_some heq
        have hpred := List.find?_some heq
        have hnone := List.find?_eq_none.mp hexact familyMatch hmem
        have hb := firstSubtag_of_no_dash (normalize_no_dash pref)
        rw [hb] at hpred
        have hna := normalize_mem_baseKeys familyMatch
        have hnp := normalize_mem_baseKeys pref
        rw [Bool.or_eq_true] at hpred
        have heqn : normalizeLanguageCode LANGUAGE_MAPPINGS familyMatch
            = normalizeLanguageCode LANGUAGE_MAPPINGS pref := by
          rcases hpred with hp | hp
          · exact baseKeys_startsWith_eq _ hna _ hnp hp
          · exact eq_of_beq hp
        exact hnone (by simp [heqn])
      next hfam =>
        split
        next p heq2 => simp
        next => simp

/-- C8 (amended): whenever some available code normalizes to the same base
language as the preferred code, `findBestLanguageMatch` reports an `exact`
match with confidence 1.0 and selects such a code; the `family` kind
(confidence 0.8) is never produced for any input, because the exact-match
test already compares normalized codes. -/
theorem family_collapses_to_exact_c8 (avail : List String) (pref : String) :
    (findBestLanguageMatch avail pref).matchType ≠ "family" ∧
    ((∃ lang ∈ avail, normalizeLanguageCode LANGUAGE_MAPPINGS lang
        = normalizeLanguageCode LANGUAGE_MAPPINGS pref) →
      (findBestLanguageMatch avail pref).matchType = "exact" ∧
      (findBestLanguageMatch avail pref).confidence = 1 ∧
      (findBestLanguageMatch avail pref).selectedLanguage ∈ avail ∧
      normalizeLanguageCode LANGUAGE_MAPPINGS
          (findBestLanguageMatch avail pref).selectedLanguage
        = normalizeLanguageCode LANGUAGE_MAPPINGS pref) := by
  refine ⟨findBest_matchType_ne_family avail pref, fun h => ?_⟩
  obtain ⟨lang, hmem, heq⟩ := h
  have hne : avail.isEmpty = false := by
    cases avail
    · simp at hmem
    · rfl
  have hsome : (avail.find? (fun l => normalizeLanguageCode LANGUAGE_MAPPINGS l
      == normalizeLanguageCode LANGUAGE_MAPPINGS pref)).isSome := by
    rw [List.find?_isSome]
    exact ⟨lang, hmem, by simp [heq]⟩
  obtain ⟨a, ha⟩ := Option.isSome_iff_exists.mp hsome
  have hprd := List.find?_some ha
  unfold findBestLanguageMatch
  rw [hne]
  simp only [Bool.false_eq_true, if_false, ha]
  exact ⟨trivial, trivial, List.mem_of_find?_eq_some ha, eq_of_beq (by simpa using hprd)⟩

/-- C8 counterexample: available `["en-GB"]`, preferred `"en"` — the set
does not contain the preferred code verbatim and `en-GB` shares its primary
subtag, yet the match kind is `exact` with confidence 1.0, not `family`
with 0.8. -/
theorem family_counterexample_c8 :
    "en" ∉ (["en-GB"] : List String) ∧
    firstSubtag "en-GB" = firstSubtag "en" ∧
    (findBestLanguageMatch ["en-GB"] "en").matchType = "exact" ∧
    (findBestLanguageMatch ["en-GB"] "en").matchType ≠ "family" ∧
    (findBestLanguageMatch ["en-GB"] "en").confidence = 1 := by decide

/-- Witness for the amended C8 at available `["en-GB"]`, preferred `"en"`. -/
theorem family_collapses_to_exact_c8_witness :
    (∃ lang ∈ (["en-GB"] : List String), normalizeLanguageCode LANGUAGE_MAPPINGS lang
        = normalizeLanguageCode LANGUAGE_MAPPINGS "en") ∧
    (findBestLanguageMatch ["en-GB"] "en").matchType = "exact" :=
  ⟨⟨"en-GB", by decide, by decide⟩,
   ((family_collapses_to_exact_c8 ["en-GB"] "en").2
      ⟨"en-GB", by decide, by decide⟩).1⟩

/-! ## Strategy selection (claims C3 and C4) -/

/-- C3 counterexample: a live video that carries closed captions, with audio
fallback enabled, yields `[whisper-audio]` rather than the three-element
caption-first list the claim requires for every captioned video. -/
theorem strategy_captions_counterexample_c3 :
    liveCaptionedVideo.hasClosedCaptions = true ∧
    DEFAULT_PREFERENCES.audioFallback = true ∧
    selectStrategy liveCaptionedVideo DEFAULT_PREFERENCES
      = [.whisperAudioMethod] ∧
    selectStrategy liveCaptionedVideo DEFAULT_PREFERENCES
      ≠ [.youtubeTranscript, .youtubeCaptionExtractor, .whisperAudioMethod] := by
  decide

/-- C3 (amended): for every metadata that is *suitable for extraction* (not
live, not upcoming, not 0–10 seconds long) with closed captions and audio
fallback enabled, `selectStrategy` is exactly the fixed three-technique
list, whether or not the preferred language is among the available caption
languages. -/
theorem strategy_captions_c3 (md : VideoMetadata) (prefs : ExtractionPreferences)
    (h1 : isVideoSuitableForExtraction md = true)
    (h2 : md.hasClosedCaptions = true)
    (h3 : prefs.audioFallback = true) :
    selectStrategy md prefs =
      [.youtubeTranscript, .youtubeCaptionExtractor, .whisperAudioMethod] := by
  simp only [selectStrategy, h1, h2, h3, not_true_eq_false, if_false, if_true, ite_self]
  decide

/-- Witness for the amended C3: a plain captioned video with the default
preferences. -/
theorem strategy_captions_c3_witness :
    (isVideoSuitableForExtraction captionedVideo = true ∧
     captionedVideo.hasClosedCaptions = true ∧
     DEFAULT_PREFERENCES.audioFallback = true) ∧
    selectStrategy captionedVideo DEFAULT_PREFERENCES =
      [.youtubeTranscript, .youtubeCaptionExtractor, .whisperAudioMethod] :=
  ⟨⟨by decide, by decide, by decide⟩,
   strategy_captions_c3 captionedVideo DEFAULT_PREFERENCES
     (by decide) (by decide) (by decide)⟩

/-- C4: for live, upcoming, or very short (0–10 s) videos, `selectStrategy`
is `[whisper-audio]` when audio fallback is enabled and `[]` otherwise, and
no caption technique is ever selected. -/
theorem strategy_unsuitable_c4 (md : VideoMetadata) (prefs : ExtractionPreferences)
    (h : md.isLive = true ∨ md.isUpcoming = true ∨
      (0 < md.duration ∧ md.duration < 10)) :
    selectStrategy md prefs
      = (if prefs.audioFallback then [.whisperAudioMethod] else []) ∧
    TranscriptMethod.youtubeTranscript ∉ selectStrategy md prefs ∧
    TranscriptMethod.youtubeCaptionExtractor ∉ selectStrategy md prefs := by
  have hsuit : isVideoSuitableForExtraction md = false := by
    unfold isVideoSuitableForExtraction
    split_ifs with hl hu hd
    · rfl
    · rfl
    · rfl
    · rcases h with h | h | h
      · exact absurd h (by simp [hl])
      · exact absurd h (by simp [hu])
      · exact absurd h hd
  refine ⟨by simp [selectStrategy, hsuit], ?_, ?_⟩ <;>
    · simp only [selectStrategy, hsuit, Bool.false_eq_true, not_false_eq_true, if_true]
      cases prefs.audioFallback <;> simp

/-- Witness for C4: a five-second video with the default preferences. -/
theorem strategy_unsuitable_c4_witness :
    (shortVideo.isLive = true ∨ shortVideo.isUpcoming = true ∨
      (0 < shortVideo.duration ∧ shortVideo.duration < 10)) ∧
    selectStrategy shortVideo DEFAULT_PREFERENCES = [.whisperAudioMethod] :=
  ⟨Or.inr (Or.inr (by decide)), by
    have h := (strategy_unsuitable_c4 shortVideo DEFAULT_PREFERENCES
      (Or.inr (Or.inr (by decide)))).1
    simpa [DEFAULT_PREFERENCES] using h⟩

/-! ## Whisper language gate (claim C5) -/

/-- The Whisper config carries the hint `normalize(preferredLanguage)`. -/
theorem getMethodConfig_whisper_hint (md : VideoMetadata) (prefs : ExtractionPreferences) :
    (getMethodConfig .whisperAudioMethod md prefs).languageHint
      = some (normalizeLanguageCode LANGUAGE_MAPPINGS prefs.preferredLanguage) := by
  simp [getMethodConfig, methodName, createLanguageConfig]

/-- The Whisper config carries the language config built for it. -/
theorem getMethodConfig_whisper_lc (md : VideoMetadata) (prefs : ExtractionPreferences) :
    (getMethodConfig .whisperAudioMethod md prefs).languageConfig
      = some (createLanguageConfig prefs.preferredLanguage md.availableLanguages
          "whisper-audio") := by
  simp [getMethodConfig, methodName]

/-- The Whisper config's `language` is the matcher's selected language. -/
theorem getMethodConfig_whisper_language (md : VideoMetadata) (prefs : ExtractionPreferences) :
    (getMethodConfig .whisperAudioMethod md prefs).language
      = (findBestLanguageMatch md.availableLanguages prefs.preferredLanguage).selectedLanguage := by
  simp [getMethodConfig, methodName, createLanguageConfig]

/-- C5 (amended): the preferred-language *hint* is passed to the transcription
backend only when the match confidence exceeds 0.7; but when it does not, the
request still specifies the matcher's selected language (normalized) whenever
that string is non-empty and not `"auto"` — automatic detection is requested
only when neither branch applies, not "in every other case". -/
theorem whisper_gate_c5 (md : VideoMetadata) (prefs : ExtractionPreferences) :
    ((createLanguageConfig prefs.preferredLanguage md.availableLanguages
        "whisper-audio").matchConfidence > mkRat 7 10 →
      whisperLanguageChoice (getMethodConfig .whisperAudioMethod md prefs)
        = some (normalizeLanguageCode LANGUAGE_MAPPINGS
            (normalizeLanguageCode LANGUAGE_MAPPINGS prefs.preferredLanguage))) ∧
    (¬ ((createLanguageConfig prefs.preferredLanguage md.availableLanguages
        "whisper-audio").matchConfidence > mkRat 7 10) →
      (findBestLanguageMatch md.availableLanguages prefs.preferredLanguage).selectedLanguage ≠ "" →
      (findBestLanguageMatch md.availableLanguages prefs.preferredLanguage).selectedLanguage ≠ "auto" →
      whisperLanguageChoice (getMethodConfig .whisperAudioMethod md prefs)
        = some (normalizeLanguageCode LANGUAGE_MAPPINGS
            (findBestLanguageMatch md.availableLanguages prefs.preferredLanguage).selectedLanguage)) ∧
    (¬ ((createLanguageConfig prefs.preferredLanguage md.availableLanguages
        "whisper-audio").matchConfidence > mkRat 7 10) →
      ((findBestLanguageMatch md.availableLanguages prefs.preferredLanguage).selectedLanguage = "" ∨
       (findBestLanguageMatch md.availableLanguages prefs.preferredLanguage).selectedLanguage = "auto") →
      whisperLanguageChoice (getMethodConfig .whisperAudioMethod md prefs) = none) := by
  have hHint := getMethodConfig_whisper_hint md prefs
  have hLC := getMethodConfig_whisper_lc md prefs
  have hLang := getMethodConfig_whisper_language md prefs
  have hne := normalize_ne_empty prefs.preferredLanguage
  refine ⟨fun hgt => ?_, fun hle h1 h2 => ?_, fun hle h12 => ?_⟩
  · simp only [whisperLanguageChoice, hHint, hLC, confidenceGate, Option.getD_some]
    rw [if_pos ⟨hne, by simpa using hgt⟩]
  · simp only [whisperLanguageChoice, hHint, hLC, confidenceGate, Option.getD_some, hLang]
    rw [if_neg (fun hc => hle (by simpa using hc.2)), if_pos ⟨h1, h2⟩]
  · simp only [whisperLanguageChoice, hHint, hLC, confidenceGate, Option.getD_some, hLang]
    rw [if_neg (fun hc => hle (by simpa using hc.2)),
        if_neg (fun hc => by rcases h12 with h | h; exacts [hc.1 h, hc.2 h])]

/-- C5 counterexample: preferred `en`, available captions `{fr}` gives match
confidence 0.6 ≤ 0.7, yet the transcription request specifies the language
`fr` instead of asking for automatic detection. -/
theorem whisper_gate_counterexample_c5 :
    confidenceGate
      (getMethodConfig .whisperAudioMethod frenchOnlyVideo DEFAULT_PREFERENCES).languageConfig
      = false ∧
    whisperLanguageChoice
      (getMethodConfig .whisperAudioMethod frenchOnlyVideo DEFAULT_PREFERENCES)
      = some "fr" := by decide

/-- Witness for the amended C5 at the same concrete input. -/
theorem whisper_gate_c5_witness :
    (¬ ((createLanguageConfig DEFAULT_PREFERENCES.preferredLanguage
        frenchOnlyVideo.availableLanguages "whisper-audio").matchConfidence > mkRat 7 10) ∧
     (findBestLanguageMatch frenchOnlyVideo.availableLanguages
        DEFAULT_PREFERENCES.preferredLanguage).selectedLanguage ≠ "" ∧
     (findBestLanguageMatch frenchOnlyVideo.availableLanguages
        DEFAULT_PREFERENCES.preferredLanguage).selectedLanguage ≠ "auto") ∧
    whisperLanguageChoice
      (getMethodConfig .whisperAudioMethod frenchOnlyVideo DEFAULT_PREFERENCES)
      = some "fr" := by
  refine ⟨⟨by decide, by decide, by decide⟩, ?_⟩
  have h := (whisper_gate_c5 frenchOnlyVideo DEFAULT_PREFERENCES).2.1
    (by decide) (by decide) (by decide)
  rw [h]
  decide

/-! ## Fallback executor (claims C1, C2, C10) -/

/-- If the attempt at index `i` is the first sufficient one, the loop
returns it and visits exactly the first `i + 1` methods. -/
theorem fallbackGo_first_success (g : TranscriptMethod → TResult) (cfg : FallbackConfig) :
    ∀ (methods : List TranscriptMethod) (errors : List String) (i : Nat)
      (hi : i < methods.length),
      sufficientResult (g methods[i]) = true →
      (∀ j (hj : j < methods.length), j < i → ¬ sufficientResult (g methods[j]) = true) →
      extractWithFallbackGo (fun m => Except.ok (g m)) cfg methods errors
        = (g methods[i], methods.take (i + 1)) := by
  intro methods
  induction methods with
  | nil => intro errors i hi; exact absurd hi (by simp)
  | cons m rest ih =>
    intro errors i hi hq hmin
    match i with
    | 0 =>
      simp only [List.getElem_cons_zero] at hq ⊢
      simp [extractWithFallbackGo, hq]
    | j + 1 =>
      have hm0 : ¬ sufficientResult (g m) = true := by
        have := hmin 0 (by simp) (Nat.succ_pos j)
        simpa using this
      simp only [List.getElem_cons_succ] at hq ⊢
      have hmink : ∀ k (hk : k < rest.length), k < j → ¬ sufficientResult (g rest[k]) = true :=
        fun k hk hlt => by
          have := hmin (k + 1) (by simpa using Nat.succ_lt_succ hk) (Nat.succ_lt_succ hlt)
          simpa using this
      simp only [extractWithFallbackGo, if_neg hm0]
      rw [ih _ j (by simpa using hi) hq hmink]
      simp [List.take_succ_cons]

/-- A successful result of the loop passed the sufficiency test. -/
theorem fallbackGo_success_long (g : TranscriptMethod → TResult) (cfg : FallbackConfig) :
    ∀ (methods : List TranscriptMethod) (errors : List String),
      (extractWithFallbackGo (fun m => Except.ok (g m)) cfg methods errors).1.success = true →
      (extractWithFallbackGo (fun m => Except.ok (g m)) cfg methods errors).1.transcript.length
        > 50 := by
  intro methods
  induction methods with
  | nil =>
    intro errors h
    simp [extractWithFallbackGo, allFailedResult] at h
  | cons m rest ih =>
    intro errors h
    by_cases hs : sufficientResult (g m) = true
    · simp only [extractWithFallbackGo, if_pos hs] at h ⊢
      simp only [sufficientResult, Bool.and_eq_true, decide_eq_true_eq] at hs
      exact hs.2
    · simp only [extractWithFallbackGo, if_neg hs] at h ⊢
      exact ih _ h

/-- C1: the Fallback Executor returns the outcome of the first technique
whose attempt is successful with a transcript longer than 50 characters,
invokes no later technique, and (in general) any returned result with
`success = true` has transcript length above 50. -/
theorem fallback_first_success_c1 (backend : Backend) (cfg : FallbackConfig)
    (methods : List TranscriptMethod) (i : Nat) (hi : i < methods.length)
    (hq : sufficientResult (extractTranscript backend cfg methods[i]) = true)
    (hmin : ∀ j (hj : j < methods.length), j < i →
      ¬ sufficientResult (extractTranscript backend cfg methods[j]) = true) :
    extractWithFallback backend cfg methods = extractTranscript backend cfg methods[i] ∧
    invokedMethods backend cfg methods = methods.take (i + 1) ∧
    (∀ (b : Backend) (c : FallbackConfig) (ms : List TranscriptMethod),
      (extractWithFallback b c ms).success = true →
      (extractWithFallback b c ms).transcript.length > 50) := by
  have h := fallbackGo_first_success (extractTranscript backend cfg) cfg methods [] i hi hq hmin
  refine ⟨?_, ?_, ?_⟩
  · simp only [extractWithFallback, h]
  · simp only [invokedMethods, h]
  · intro b c ms
    exact fallbackGo_success_long (extractTranscript b c) c ms []

/-- Witness for C1: the first technique is insufficient, the second
succeeds, the third is never invoked. -/
theorem fallback_first_success_c1_witness :
    (sufficientResult (extractTranscript secondSucceedsBackend {}
        ([.youtubeTranscript, .youtubeCaptionExtractor, .whisperAudioMethod])[1]) = true ∧
     ¬ sufficientResult (extractTranscript secondSucceedsBackend {}
        ([.youtubeTranscript, .youtubeCaptionExtractor, .whisperAudioMethod])[0]) = true) ∧
    extractWithFallback secondSucceedsBackend {}
        [.youtubeTranscript, .youtubeCaptionExtractor, .whisperAudioMethod]
      = extractTranscript secondSucceedsBackend {} .youtubeCaptionExtractor ∧
    invokedMethods secondSucceedsBackend {}
        [.youtubeTranscript, .youtubeCaptionExtractor, .whisperAudioMethod]
      = [.youtubeTranscript, .youtubeCaptionExtractor] := by
  have h := fallback_first_success_c1 secondSucceedsBackend {}
    [.youtubeTranscript, .youtubeCaptionExtractor, .whisperAudioMethod] 1
    (by decide) (by decide)
    (fun j hj hlt => by
      have hj0 : j = 0 := by omega
      subst hj0
      simp only [List.getElem_cons_zero]
      decide)
  exact ⟨⟨by decide, by decide⟩, h.1, h.2.1⟩

/-- The loop on an everywhere-insufficient attempt list aggregates one
`Insufficient content` entry per method, in order, and visits all methods. -/
theorem fallbackGo_all_fail (g : TranscriptMethod → TResult) (cfg : FallbackConfig) :
    ∀ (methods : List TranscriptMethod) (errors : List String),
      (∀ m ∈ methods, ¬ sufficientResult (g m) = true) →
      extractWithFallbackGo (fun m => Except.ok (g m)) cfg methods errors
        = (allFailedResult cfg (errors ++ methods.map (fun m =>
            methodName m ++ ": Insufficient content (" ++
              toString (g m).transcript.length ++ " chars)")), methods) := by
  intro methods
  induction methods with
  | nil => intro errors _; simp [extractWithFallbackGo]
  | cons m rest ih =>
    intro errors hall
    have hm : ¬ sufficientResult (g m) = true := hall m (List.mem_cons_self m rest)
    have hrec := ih (errors ++ [methodName m ++ ": Insufficient content (" ++
        toString (g m).transcript.length ++ " chars)"])
      (fun x hx => hall x (List.mem_cons_of_mem m hx))
    simp [extractWithFallbackGo, hm, hrec]

/-- C2 (amended): when every technique fails or is insufficient, the failure
result's error message is `"All extraction methods failed. Errors: "`
followed by the semicolon-joined entries, one per technique in attempt
order; every entry has the form `method: Insufficient content (N chars)`
with `N` the transcript length of that attempt's outcome (0 when the
backend threw, because `extractTranscript` converts the thrown error into a
failed outcome with an empty transcript — the thrown message itself never
reaches the aggregate). -/
theorem fallback_all_fail_c2 (backend : Backend) (cfg : FallbackConfig)
    (methods : List TranscriptMethod)
    (hall : ∀ m ∈ methods, ¬ sufficientResult (extractTranscript backend cfg m) = true) :
    extractWithFallback backend cfg methods
      = allFailedResult cfg (methods.map (fun m =>
          methodName m ++ ": Insufficient content (" ++
            toString (extractTranscript backend cfg m).transcript.length ++ " chars)")) ∧
    invokedMethods backend cfg methods = methods ∧
    (extractWithFallback backend cfg methods).error
      = some ("All extraction methods failed. Errors: " ++
          jsJoin "; " (methods.map (fun m =>
            methodName m ++ ": Insufficient content (" ++
              toString (extractTranscript backend cfg m).transcript.length ++ " chars)"))) := by
  have h := fallbackGo_all_fail (extractTranscript backend cfg) cfg methods [] hall
  refine ⟨?_, ?_, ?_⟩
  · simp only [extractWithFallback, h, List.nil_append]
  · simp only [invokedMethods, h]
  · simp only [extractWithFallback, h, List.nil_append, allFailedResult]

/-- C2 counterexample: one technique whose backend throws `boom`.  The
aggregated message carries the prefix `All extraction methods failed.
Errors: ` and an `Insufficient content (0 chars)` entry, so it is neither
the bare entry built from the thrown message nor a bare
insufficient-content entry, as the claim's reading of "the error message is
the semicolon-joined concatenation" would require. -/
theorem fallback_errors_counterexample_c2 :
    (extractWithFallback throwingBackend {} [.youtubeTranscript]).error
      = some ("All extraction methods failed. Errors: " ++
          "youtube-transcript: Insufficient content (0 chars)") ∧
    ("All extraction methods failed. Errors: " ++
        "youtube-transcript: Insufficient content (0 chars)")
      ≠ "youtube-transcript: boom" ∧
    ("All extraction methods failed. Errors: " ++
        "youtube-transcript: Insufficient content (0 chars)")
      ≠ "youtube-transcript: Insufficient content (0 chars)" ∧
    ("All extraction methods failed. Errors: " ++
        "youtube-transcript: Insufficient content (0 chars)")
      ≠ "youtube-transcript: insufficient content (0 chars)" := by decide

set_option maxRecDepth 8000 in
/-- Witness for the amended C2: a thrown error, a 4-character transcript and
an unconfigured transcription backend aggregate three entries in order. -/
theorem fallback_all_fail_c2_witness :
    (∀ m ∈ ([.youtubeTranscript, .youtubeCaptionExtractor, .whisperAudioMethod] :
        List TranscriptMethod),
      ¬ sufficientResult (extractTranscript allFailBackend {} m) = true) ∧
    (extractWithFallback allFailBackend {}
        [.youtubeTranscript, .youtubeCaptionExtractor, .whisperAudioMethod]).error
      = some ("All extraction methods failed. Errors: " ++
          "youtube-transcript: Insufficient content (0 chars); " ++
          "youtube-caption-extractor: Insufficient content (4 chars); " ++
          "whisper-audio: Insufficient content (0 chars)") := by
  refine ⟨by decide, ?_⟩
  have h := (fallback_all_fail_c2 allFailBackend {}
    [.youtubeTranscript, .youtubeCaptionExtractor, .whisperAudioMethod] (by decide)).2.2
  rw [h]
  decide

/-- C10: on an empty technique list the executor invokes no backend and
returns the canonical all-failed record with the bare aggregate message. -/
theorem fallback_empty_c10 (backend : Backend) (cfg : FallbackConfig) :
    extractWithFallback backend cfg [] = allFailedResult cfg [] ∧
    invokedMethods backend cfg [] = [] ∧
    (extractWithFallback backend cfg []).success = false ∧
    (extractWithFallback backend cfg []).transcript = "" ∧
    (extractWithFallback backend cfg []).method = "none" ∧
    (extractWithFallback backend cfg []).extractionTime = 0 ∧
    (extractWithFallback backend cfg []).error
      = some "All extraction methods failed. Errors: " := by
  have h : extractWithFallback backend cfg [] = allFailedResult cfg [] := by
    simp [extractWithFallback, extractWithFallbackGo]
  rw [h]
  refine ⟨rfl, rfl, rfl, rfl, rfl, rfl, ?_⟩
  simp [allFailedResult, jsJoin]

/-! ## SRT rendering (claim C9) -/

/-- The source's time fields coincide with the claim's description of them. -/
theorem srtTime_eq (t : Nat) : formatSrtTime t = claimSrtTime t := by
  simp only [formatSrtTime, claimSrtTime]
  have h1 : t / 1000 / 3600 = t / 3600000 := by omega
  have h2 : t / 1000 % 3600 / 60 = t / 60000 % 60 := by omega
  rw [h1, h2]

/-- Joining newline-terminated blocks with `\n` is the same as joining the
bare blocks with blank lines and appending a final newline. -/
theorem jsJoin_blocks {α : Type} (f : α → String) (l : List α) :
    jsJoin "\n" (l.map (fun x => f x ++ "\n"))
      = if l.isEmpty then "" else jsJoin "\n\n" (l.map f) ++ "\n" := by
  induction l with
  | nil => rfl
  | cons a t ih =>
    cases t with
    | nil => rfl
    | cons b t2 =>
      simp only [List.map_cons, jsJoin, List.isEmpty_cons, Bool.false_eq_true,
        if_false] at ih ⊢
      rw [ih]
      rw [String.append_assoc (f a) "\n" "\n"]
      have h2 : ("\n" : String) ++ "\n" = "\n\n" := rfl
      rw [h2]
      rw [← String.append_assoc (f a ++ "\n\n")
        (jsJoin "\n\n" (f b :: List.map f t2)) "\n"]

/-- C9: the SRT encoder renders exactly as the claim describes — 1-based
sequential index, `HH:MM:SS,mmm --> HH:MM:SS,mmm` timing line with start
and start+duration decomposed by integer division with 2/2/2/3-digit
zero-padding, then the text, blocks separated by blank lines — and the
concrete segment (start 0 ms, duration 1500 ms) renders the claimed line. -/
theorem srt_rendering_c9 :
    (∀ segments : List SrtSegment, formatAsSrt segments = claimSrtRender segments) ∧
    formatAsSrt [{ text := "Hello", start := 0, duration := 1500 }]
      = "1\n00:00:00,000 --> 00:00:01,500\nHello\n" := by
  constructor
  · intro segs
    have hb : (fun p : Nat × SrtSegment =>
          toString (p.1 + 1) ++ "\n" ++ formatSrtTime p.2.start ++ " --> " ++
            formatSrtTime (p.2.start + p.2.duration) ++ "\n" ++ p.2.text ++ "\n")
        = (fun p : Nat × SrtSegment => claimSrtBlock p ++ "\n") := by
      funext p
      simp only [srtTime_eq, claimSrtBlock]
    unfold formatAsSrt claimSrtRender
    rw [hb, jsJoin_blocks claimSrtBlock segs.enum]
    cases segs <;> simp
  · decide

end YtTranscript
